import Mathlib

/-!
Verification of the lesson-progress tracker embedded in the ACE avionics
lesson pages (`src/unnamed/part_000`, the IIFE installing `window.CAETTracker`).

The JavaScript is shallowly embedded: JS numbers are modelled as exact
rationals (`ℚ`) where fractional arithmetic occurs, and as `ℕ` for the
counters the code only ever initialises to zero and increments
(`activeTime`, `interactions`, the question-ledger totals).  JS objects used
as string-keyed maps (`quizScores`, `topicProgress`,
`questionsAnswered.questions`) become insertion-ordered association lists,
matching JS property-order semantics (updating an existing key keeps its
position, a new key is appended).  `Date.now()` becomes an explicit `now`
parameter.  Operations that call `sendProgressUpdate` / `sendToParent`
return the list of messages they emit alongside the new state.
-/

namespace LessonTracker

/-- JS `Math.round`: round half toward positive infinity. -/
def jsRound (q : ℚ) : ℤ := ⌊q + 1/2⌋

/-- The name normalisation used by `completeObjective` / `addObjective`:
`name.toLowerCase().replace(/[^a-z0-9]/g, '')` — lowercase, then keep only
ASCII letters and digits. -/
def canonicalize (s : String) : String :=
  String.mk ((s.data.map Char.toLower).filter
    (fun c => (('a' ≤ c && c ≤ 'z') || ('0' ≤ c && c ≤ '9'))))

/-- Lookup in a JS-object-as-map modelled as an association list. -/
def objGet (k : String) : List (String × α) → Option α
  | [] => none
  | (k', v') :: rest => if k = k' then some v' else objGet k rest

/-- JS property assignment `o[k] = v`: update in place if the key exists,
append otherwise. -/
def objSet (k : String) (v : α) : List (String × α) → List (String × α)
  | [] => [(k, v)]
  | (k', v') :: rest => if k = k' then (k, v) :: rest else (k', v') :: objSet k v rest

/-- JS `array.find(p)` followed by mutation of the found element: update the
first element satisfying `p`, leave the rest alone. -/
def updateFirst (p : α → Bool) (f : α → α) : List α → List α
  | [] => []
  | x :: xs => if p x then f x :: xs else x :: updateFirst p f xs

/-- One entry of `trackerState.objectives`. -/
structure Objective where
  name : String
  completed : Bool
  score : ℚ
  timestamp : ℕ
deriving DecidableEq

/-- One value of the `trackerState.quizScores` map. -/
structure QuizEntry where
  score : ℚ
  maxScore : ℚ
  percentage : ℤ
  totalQuestions : ℚ
  timestamp : ℕ
deriving DecidableEq

/-- One value of the `trackerState.questionsAnswered.questions` map. -/
structure QuestionEntry where
  answered : Bool
  correct : Bool
  text : String
  timestamp : ℕ
deriving DecidableEq

/-- `trackerState.questionsAnswered`. -/
structure QuestionLedger where
  total : ℕ
  correct : ℕ
  questions : List (String × QuestionEntry)
deriving DecidableEq

/-- The whole `trackerState` object. -/
structure TrackerState where
  lessonId : Option String
  lessonTitle : String
  startTime : ℕ
  lastActivity : ℕ
  totalTime : ℕ
  activeTime : ℕ
  scrollDepth : ℚ
  maxScrollDepth : ℚ
  interactions : ℕ
  objectives : List Objective
  isActive : Bool
  isFullscreen : Bool
  quizScores : List (String × QuizEntry)
  topicProgress : List (String × ℚ)
  questionsAnswered : QuestionLedger
deriving DecidableEq

/-- The literal initialiser of `trackerState` (all counters zero, empty
collections), with the page title and start instant as parameters. -/
def initialState (title : String) (startNow : ℕ) : TrackerState where
  lessonId := none
  lessonTitle := title
  startTime := startNow
  lastActivity := startNow
  totalTime := 0
  activeTime := 0
  scrollDepth := 0
  maxScrollDepth := 0
  interactions := 0
  objectives := []
  isActive := true
  isFullscreen := false
  quizScores := []
  topicProgress := []
  questionsAnswered := { total := 0, correct := 0, questions := [] }

/-- `CONFIG.minActiveTime` (seconds). -/
def minActiveTime : ℚ := 30

/-- Standard-mode time component: `Math.min(100, (activeTime / CONFIG.minActiveTime) * 40)`. -/
def timeProgressStd (s : TrackerState) : ℚ :=
  min 100 (((s.activeTime : ℚ) / minActiveTime) * 40)

/-- Quiz-aware time component: `Math.min(100, (activeTime / CONFIG.minActiveTime) * 25)`. -/
def timeProgressQuiz (s : TrackerState) : ℚ :=
  min 100 (((s.activeTime : ℚ) / minActiveTime) * 25)

/-- Standard-mode scroll component: `(maxScrollDepth / 100) * 30`. -/
def scrollProgressStd (s : TrackerState) : ℚ :=
  (s.maxScrollDepth / 100) * 30

/-- Quiz-aware scroll component: `(maxScrollDepth / 100) * 20`. -/
def scrollProgressQuiz (s : TrackerState) : ℚ :=
  (s.maxScrollDepth / 100) * 20

/-- Standard-mode interaction component: `Math.min(15, interactions)`. -/
def interactionProgressStd (s : TrackerState) : ℚ :=
  min 15 (s.interactions : ℚ)

/-- Quiz-aware interaction component: `Math.min(10, interactions * 0.5)`. -/
def interactionProgressQuiz (s : TrackerState) : ℚ :=
  min 10 ((s.interactions : ℚ) * (1/2))

/-- Objectives component, shared by both modes: proportion of completed
objectives scaled to 15, or the full 15 when no objectives are defined. -/
def objectiveProgress (s : TrackerState) : ℚ :=
  if s.objectives.length > 0 then
    (((s.objectives.filter (fun o => o.completed)).length : ℚ) /
      (s.objectives.length : ℚ)) * 15
  else
    15

/-- Quiz/questions component (quiz-aware mode only): average stored quiz
percentage scaled to 30, else the correct-answer ratio scaled to 30. -/
def quizQuestionProgress (s : TrackerState) : ℚ :=
  if s.quizScores.length > 0 then
    let vals := s.quizScores.map (fun p => (p.2.percentage : ℚ))
    let avgQuizScore := vals.sum / (vals.length : ℚ)
    (avgQuizScore / 100) * 30
  else if s.questionsAnswered.total > 0 then
    let correctPercent :=
      ((s.questionsAnswered.correct : ℚ) / (s.questionsAnswered.total : ℚ)) * 100
    (correctPercent / 100) * 30
  else
    0

/-- `calculateProgress()`: the quiz-aware formula when any quiz score or
answered question exists, otherwise the standard formula; the sum is rounded
and capped at 100 (`Math.min(100, Math.round(progress))`). -/
def calculateProgress (s : TrackerState) : ℤ :=
  let hasQuizzes := s.quizScores.length > 0
  let hasQuestions := s.questionsAnswered.total > 0
  let progress : ℚ :=
    if hasQuizzes ∨ hasQuestions then
      timeProgressQuiz s + scrollProgressQuiz s + interactionProgressQuiz s +
        quizQuestionProgress s + objectiveProgress s
    else
      timeProgressStd s + scrollProgressStd s + interactionProgressStd s +
        objectiveProgress s
  min 100 (jsRound progress)

/-- The outbound messages the API operations can send to the parent frame. -/
inductive OutMsg where
  | progressUpdate (lessonId : Option String) (progress : ℤ)
  | lessonCompleted (lessonId : Option String)
deriving DecidableEq

/-- `sendProgressUpdate()`: emit one `PROGRESS_UPDATE` message carrying the
freshly computed progress. -/
def sendProgressUpdate (s : TrackerState) : List OutMsg :=
  [OutMsg.progressUpdate s.lessonId (calculateProgress s)]

/-- `CAETTracker.completeObjective(objectiveName, score = 100)`. -/
def completeObjective (objectiveName : String) (score : ℚ) (now : ℕ)
    (s : TrackerState) : TrackerState × List OutMsg :=
  let normalizedName := canonicalize objectiveName
  let newEntry : Objective :=
    { name := objectiveName, completed := true, score := score, timestamp := now }
  let markDone : Objective → Objective :=
    fun o => { o with completed := true, score := max o.score score }
  let s' :=
    if (s.objectives.find? (fun o => canonicalize o.name == normalizedName)).isSome then
      let objs := updateFirst (fun o => canonicalize o.name == normalizedName) markDone s.objectives
      { s with objectives := objs }
    else
      { s with objectives := s.objectives ++ [newEntry] }
  (s', sendProgressUpdate s')

/-- `CAETTracker.addObjective(objectiveName)`: register an incomplete
objective only if its canonical key is new.  Note: it does not call
`sendProgressUpdate`. -/
def addObjective (objectiveName : String) (now : ℕ)
    (s : TrackerState) : TrackerState × List OutMsg :=
  let normalizedName := canonicalize objectiveName
  let newEntry : Objective :=
    { name := objectiveName, completed := false, score := 0, timestamp := now }
  if (s.objectives.find? (fun o => canonicalize o.name == normalizedName)).isSome then
    (s, [])
  else
    ({ s with objectives := s.objectives ++ [newEntry] }, [])

/-- `CAETTracker.recordQuizScore(quizName, score, maxScore = 100,
totalQuestions = null)`: store the rounded percentage under the raw quiz
name, only when no entry exists or the new percentage strictly exceeds the
stored one; always report. -/
def recordQuizScore (quizName : String) (score : ℚ) (maxScore : ℚ)
    (totalQuestions : Option ℚ) (now : ℕ)
    (s : TrackerState) : TrackerState × List OutMsg :=
  let percentage := jsRound ((score / maxScore) * 100)
  let entry : QuizEntry :=
    { score := score
      maxScore := maxScore
      percentage := percentage
      totalQuestions :=
        match totalQuestions with
        | some t => if t = 0 then maxScore else t
        | none => maxScore
      timestamp := now }
  let s' :=
    match objGet quizName s.quizScores with
    | some existingQuiz =>
        if percentage > existingQuiz.percentage then
          { s with quizScores := objSet quizName entry s.quizScores }
        else s
    | none => { s with quizScores := objSet quizName entry s.quizScores }
  (s', sendProgressUpdate s')

/-- `CAETTracker.recordQuestionAnswer(questionId, isCorrect, questionText = '')`:
record the answer and bump the totals only for an unseen question id;
nothing at all happens (no report either) for a repeat id. -/
def recordQuestionAnswer (questionId : String) (isCorrect : Bool)
    (questionText : String) (now : ℕ)
    (s : TrackerState) : TrackerState × List OutMsg :=
  match objGet questionId s.questionsAnswered.questions with
  | some _ => (s, [])
  | none =>
      let entry : QuestionEntry :=
        { answered := true, correct := isCorrect, text := questionText, timestamp := now }
      let ledger : QuestionLedger :=
        { total := s.questionsAnswered.total + 1
          correct := s.questionsAnswered.correct + (if isCorrect then 1 else 0)
          questions := objSet questionId entry s.questionsAnswered.questions }
      let s' := { s with questionsAnswered := ledger }
      (s', sendProgressUpdate s')

/-- The record returned by `CAETTracker.getQuestionsStats()`. -/
structure QuestionsStats where
  total : ℕ
  correct : ℕ
  percentage : ℤ
deriving DecidableEq

/-- `CAETTracker.getQuestionsStats()`. -/
def getQuestionsStats (s : TrackerState) : QuestionsStats where
  total := s.questionsAnswered.total
  correct := s.questionsAnswered.correct
  percentage :=
    if s.questionsAnswered.total > 0 then
      jsRound (((s.questionsAnswered.correct : ℚ) /
        (s.questionsAnswered.total : ℚ)) * 100)
    else 0

/-- `CAETTracker.updateTopicProgress(topicName, percentage)`: clamp to
[0,100], overwrite unconditionally, report. -/
def updateTopicProgress (topicName : String) (percentage : ℚ)
    (s : TrackerState) : TrackerState × List OutMsg :=
  let tp := objSet topicName (min 100 (max 0 percentage)) s.topicProgress
  let s' := { s with topicProgress := tp }
  (s', sendProgressUpdate s')

/-- `CAETTracker.markCompleted()`: sends `LESSON_COMPLETED`, mutates nothing. -/
def markCompleted (s : TrackerState) : TrackerState × List OutMsg :=
  (s, [OutMsg.lessonCompleted s.lessonId])

/-- `CAETTracker.setLessonId(id)`: unconditional override; no report. -/
def setLessonId (id : String) (s : TrackerState) : TrackerState × List OutMsg :=
  ({ s with lessonId := some id }, [])

/-- `CAETTracker.resetQuestions()`: clear the question ledger, report. -/
def resetQuestions (s : TrackerState) : TrackerState × List OutMsg :=
  let s' := { s with questionsAnswered := { total := 0, correct := 0, questions := [] } }
  (s', sendProgressUpdate s')

/-- The time-component formula exactly as the specification words it:
`min(weight, (activeElapsedSeconds / minActiveSeconds) × weight)` with
`minActiveSeconds = 30`.  Kept separate from the code-derived
`timeProgressStd` / `timeProgressQuiz` so the two can be compared. -/
def timeComponentSpec (weight active : ℚ) : ℚ :=
  min weight ((active / 30) * weight)

/-- A message list contains a reporting pulse: some `PROGRESS_UPDATE` is in it. -/
def emitsPulse (msgs : List OutMsg) : Prop :=
  ∃ l p, OutMsg.progressUpdate l p ∈ msgs

/-- The operations that touch the question ledger, for stating ledger
invariants over arbitrary call sequences. -/
inductive LedgerOp where
  | answer (questionId : String) (isCorrect : Bool) (text : String) (now : ℕ)
  | reset

/-- Run one ledger operation, keeping only the state. -/
def applyLedgerOp (op : LedgerOp) (s : TrackerState) : TrackerState :=
  match op with
  | .answer qid c txt now => (recordQuestionAnswer qid c txt now s).1
  | .reset => (resetQuestions s).1

/-- Run a sequence of ledger operations. -/
def runLedgerOps (ops : List LedgerOp) (s : TrackerState) : TrackerState :=
  ops.foldl (fun st op => applyLedgerOp op st) s

/-- The question-ledger bookkeeping invariant: `total` counts the recorded
question ids (which are pairwise distinct), `correct` counts the recorded
questions marked correct. -/
def ledgerInv (s : TrackerState) : Prop :=
  s.questionsAnswered.total = s.questionsAnswered.questions.length ∧
  s.questionsAnswered.correct =
    (s.questionsAnswered.questions.filter (fun p => p.2.correct)).length ∧
  (s.questionsAnswered.questions.map Prod.fst).Nodup

/-- Run a sequence of `completeObjective` calls (name, score), keeping only
the state. -/
def completeMany (calls : List (String × ℚ)) (now : ℕ) (s : TrackerState) : TrackerState :=
  calls.foldl (fun st c => (completeObjective c.1 c.2 now st).1) s

/-- The objective list holds exactly one entry whose canonical key is `k`,
that entry is completed with score `acc`, and everything around it has a
different canonical key. -/
def soleEntryScore (k : String) (acc : ℚ) (objs : List Objective) : Prop :=
  ∃ pre o post, objs = pre ++ o :: post ∧
    (∀ x ∈ pre, canonicalize x.name ≠ k) ∧
    canonicalize o.name = k ∧ o.completed = true ∧ o.score = acc ∧
    (∀ x ∈ post, canonicalize x.name ≠ k)

/-! ## Shared lemmas -/

theorem jsRound_nonneg {q : ℚ} (h : 0 ≤ q) : 0 ≤ jsRound q := by
  unfold jsRound
  rw [Int.le_floor]
  push_cast
  linarith

theorem timeProgressStd_nonneg (s : TrackerState) : 0 ≤ timeProgressStd s :=
  le_min (by norm_num)
    (mul_nonneg (div_nonneg (Nat.cast_nonneg _) (by norm_num [minActiveTime])) (by norm_num))

theorem timeProgressQuiz_nonneg (s : TrackerState) : 0 ≤ timeProgressQuiz s :=
  le_min (by norm_num)
    (mul_nonneg (div_nonneg (Nat.cast_nonneg _) (by norm_num [minActiveTime])) (by norm_num))

theorem interactionProgressStd_nonneg (s : TrackerState) : 0 ≤ interactionProgressStd s :=
  le_min (by norm_num) (Nat.cast_nonneg _)

theorem interactionProgressQuiz_nonneg (s : TrackerState) : 0 ≤ interactionProgressQuiz s :=
  le_min (by norm_num) (mul_nonneg (Nat.cast_nonneg _) (by norm_num))

theorem objectiveProgress_nonneg (s : TrackerState) : 0 ≤ objectiveProgress s := by
  unfold objectiveProgress
  split
  · exact mul_nonneg (div_nonneg (Nat.cast_nonneg _) (Nat.cast_nonneg _)) (by norm_num)
  · norm_num

theorem quizQuestionProgress_nonneg (s : TrackerState)
    (hQ : ∀ p ∈ s.quizScores, (0:ℤ) ≤ p.2.percentage) : 0 ≤ quizQuestionProgress s := by
  unfold quizQuestionProgress
  split
  · refine mul_nonneg (div_nonneg (div_nonneg ?_ (Nat.cast_nonneg _)) (by norm_num)) (by norm_num)
    refine List.sum_nonneg ?_
    intro x hx
    simp only [List.mem_map] at hx
    obtain ⟨p, hp, rfl⟩ := hx
    exact_mod_cast hQ p hp
  · split
    · refine mul_nonneg (div_nonneg ?_ (by norm_num)) (by norm_num)
      exact mul_nonneg (div_nonneg (Nat.cast_nonneg _) (Nat.cast_nonneg _)) (by norm_num)
    · exact le_refl 0

/-! ## C1: range of the progress score, fresh-session value -/

/-- C1 (amended): for every session state whose recorded maximal scroll depth
and stored quiz percentages are nonnegative (which holds for every state the
page collectors and nonnegative-score API calls can produce),
`calculateProgress` is an integer in [0,100]; and a fresh session with zero
activity scores exactly 15 in standard mode, the full objectives weight
awarded because no objectives are defined.  Over arbitrary session states
the claim fails, because `recordQuizScore` stores unclamped negative
percentages and `calculateProgress` has no lower clamp; see
`c1_counterexample`. -/
theorem c1_progress_bounds (s : TrackerState) (title : String) (t : ℕ)
    (hScroll : 0 ≤ s.maxScrollDepth)
    (hQ : ∀ p ∈ s.quizScores, (0:ℤ) ≤ p.2.percentage) :
    (0 ≤ calculateProgress s ∧ calculateProgress s ≤ 100) ∧
      calculateProgress (initialState title t) = 15 := by
  refine ⟨⟨?_, min_le_left _ _⟩, ?_⟩
  · unfold calculateProgress
    refine le_min (by norm_num) (jsRound_nonneg ?_)
    have hscrollq : 0 ≤ scrollProgressQuiz s :=
      mul_nonneg (div_nonneg hScroll (by norm_num)) (by norm_num)
    have hscrolls : 0 ≤ scrollProgressStd s :=
      mul_nonneg (div_nonneg hScroll (by norm_num)) (by norm_num)
    split
    · have := timeProgressQuiz_nonneg s
      have := interactionProgressQuiz_nonneg s
      have := quizQuestionProgress_nonneg s hQ
      have := objectiveProgress_nonneg s
      linarith
    · have := timeProgressStd_nonneg s
      have := interactionProgressStd_nonneg s
      have := objectiveProgress_nonneg s
      linarith
  · norm_num [calculateProgress, initialState, jsRound, timeProgressStd, scrollProgressStd,
      interactionProgressStd, objectiveProgress, minActiveTime]

/-- C1 witness: the bounds and the value 15 at the fresh session itself. -/
theorem c1_progress_bounds_witness :
    (0 ≤ calculateProgress (initialState "" 0) ∧ calculateProgress (initialState "" 0) ≤ 100) ∧
      calculateProgress (initialState "" 0) = 15 :=
  c1_progress_bounds (initialState "" 0) "" 0 (by norm_num [initialState])
    (by simp [initialState])

/-- C1 counterexample: the state reached from a fresh session by the single
API call `recordQuizScore("q", -200, 100)` — reachable because quiz scores
are not clamped on write — has progress −45, outside [0,100]. -/
theorem c1_counterexample :
    ¬ (0 ≤ calculateProgress ((recordQuizScore "q" (-200) 100 none 0 (initialState "" 0)).1) ∧
       calculateProgress ((recordQuizScore "q" (-200) 100 none 0 (initialState "" 0)).1) ≤ 100) := by
  have h : calculateProgress ((recordQuizScore "q" (-200) 100 none 0 (initialState "" 0)).1) = -45 := by
    simp only [recordQuizScore, initialState, objGet, objSet, jsRound]
    norm_num [calculateProgress, jsRound, timeProgressQuiz, scrollProgressQuiz,
      interactionProgressQuiz, quizQuestionProgress, objectiveProgress, minActiveTime]
  rw [h]
  norm_num

/-! ## C2: the time component and its cap -/

/-- C2 (amended): both time components are capped at 100 — not at the
weight of their mode.  They agree with the specification formula
`min(weight, (activeElapsedSeconds / 30) × weight)` exactly while
`activeElapsedSeconds ≤ 30`; past 30 seconds they strictly exceed the mode
weight (40 standard, 25 quiz-aware), the source reading
`Math.min(100, (activeTime / CONFIG.minActiveTime) * weight)`; see
`c2_counterexample`. -/
theorem c2_time_cap (s : TrackerState) :
    timeProgressStd s ≤ 100 ∧ timeProgressQuiz s ≤ 100 ∧
    ((s.activeTime : ℚ) ≤ 30 →
      timeProgressStd s = timeComponentSpec 40 s.activeTime ∧
      timeProgressQuiz s = timeComponentSpec 25 s.activeTime) ∧
    (30 < (s.activeTime : ℚ) →
      40 < timeProgressStd s ∧ 25 < timeProgressQuiz s) := by
  have e40 : ((s.activeTime : ℚ) / 30) * 40 = (s.activeTime : ℚ) * (4/3) := by ring
  have e25 : ((s.activeTime : ℚ) / 30) * 25 = (s.activeTime : ℚ) * (5/6) := by ring
  refine ⟨min_le_left _ _, min_le_left _ _, ?_, ?_⟩
  · intro h
    have h40 : ((s.activeTime : ℚ) / 30) * 40 ≤ 40 := by rw [e40]; linarith
    have h25 : ((s.activeTime : ℚ) / 30) * 25 ≤ 25 := by rw [e25]; linarith
    constructor
    · unfold timeProgressStd timeComponentSpec minActiveTime
      rw [min_eq_right (h40.trans (by norm_num)), min_eq_right h40]
    · unfold timeProgressQuiz timeComponentSpec minActiveTime
      rw [min_eq_right (h25.trans (by norm_num)), min_eq_right h25]
  · intro h
    have h40 : 40 < ((s.activeTime : ℚ) / 30) * 40 := by rw [e40]; linarith
    have h25 : 25 < ((s.activeTime : ℚ) / 30) * 25 := by rw [e25]; linarith
    exact ⟨lt_min (by norm_num) h40, lt_min (by norm_num) h25⟩

/-- C2 witness: at the fresh session (zero active time) the component in
the code equals the specification formula, and at sixty active seconds the
standard component exceeds the weight 40. -/
theorem c2_time_cap_witness :
    timeProgressStd (initialState "" 0) =
      timeComponentSpec 40 (initialState "" 0).activeTime ∧
    40 < timeProgressStd { initialState "" 0 with activeTime := 60 } :=
  ⟨((c2_time_cap (initialState "" 0)).2.2.1 (by norm_num [initialState])).1,
   ((c2_time_cap { initialState "" 0 with activeTime := 60 }).2.2.2
      (by norm_num [initialState])).1⟩

/-- C2 counterexample: with sixty active seconds the standard-mode time
component is 80, while the claimed formula `min(weight, …)` gives 40; the
component exceeds the weight of its mode. -/
theorem c2_counterexample :
    timeProgressStd { initialState "" 0 with activeTime := 60 } = 80 ∧
    timeComponentSpec 40 60 = 40 ∧
    ¬ timeProgressStd { initialState "" 0 with activeTime := 60 } ≤ 40 := by
  have h : timeProgressStd { initialState "" 0 with activeTime := 60 } = 80 := by
    norm_num [timeProgressStd, initialState, minActiveTime]
  have h2 : timeComponentSpec 40 60 = 40 := by
    have : ((60 : ℚ) / 30) * 40 = 80 := by norm_num
    rw [timeComponentSpec, this]
    norm_num [min_def]
  refine ⟨h, h2, ?_⟩
  rw [h]
  norm_num

/-! ## Map lemmas shared by C3 and C5 -/

theorem objGet_objSet_self (k : String) (v : α) (l : List (String × α)) :
    objGet k (objSet k v l) = some v := by
  induction l with
  | nil => simp [objGet, objSet]
  | cons hd tl ih =>
    obtain ⟨k', v'⟩ := hd
    by_cases h : k = k'
    · subst h
      simp [objSet, objGet]
    · simp [objSet, objGet, h, ih]

theorem objGet_objSet_ne {k n : String} (h : k ≠ n) (v : α) (l : List (String × α)) :
    objGet k (objSet n v l) = objGet k l := by
  induction l with
  | nil => simp [objGet, objSet, h]
  | cons hd tl ih =>
    obtain ⟨k', v'⟩ := hd
    by_cases h2 : n = k'
    · subst h2
      simp [objSet, objGet, h]
    · simp only [objSet, if_neg h2]
      by_cases h3 : k = k'
      · subst h3
        simp [objGet]
      · simp [objGet, h3, ih]

theorem recordQuizScore_frame (s : TrackerState) (n k : String) (sc ms : ℚ)
    (tq : Option ℚ) (now : ℕ) (h : k ≠ n) :
    objGet k (recordQuizScore n sc ms tq now s).1.quizScores = objGet k s.quizScores := by
  unfold recordQuizScore
  cases hg : objGet n s.quizScores with
  | none => simp [hg, objGet_objSet_ne h]
  | some e =>
    simp only [hg]
    split
    · simp [objGet_objSet_ne h]
    · rfl

/-! ## C3: quiz entries are keyed by the raw name, not a canonical key -/

/-- C3 (amended): `recordQuizScore` keys its stored entries by the exact
quiz-name string: a call recording under name `n` leaves the entry of every
other key `k ≠ n` untouched, even when `k` and `n` are identical after
canonicalization.  The claim as stated fails: unlike `completeObjective`
and `addObjective`, `recordQuizScore` never canonicalizes, so two
cosmetically different names produce two independent entries; see
`c3_counterexample`. -/
theorem c3_quiz_key_exact (s : TrackerState) (n k : String) (sc ms : ℚ)
    (tq : Option ℚ) (now : ℕ) (h : k ≠ n) :
    objGet k (recordQuizScore n sc ms tq now s).1.quizScores = objGet k s.quizScores :=
  recordQuizScore_frame s n k sc ms tq now h

/-- C3 witness: recording under "ab" does not touch the entry stored under
"A B", although the two names share the canonical key "ab". -/
theorem c3_quiz_key_exact_witness :
    objGet "A B" (recordQuizScore "ab" 40 100 none 1
        ((recordQuizScore "A B" 60 100 none 0 (initialState "" 0)).1)).1.quizScores =
      objGet "A B" ((recordQuizScore "A B" 60 100 none 0 (initialState "" 0)).1).quizScores :=
  c3_quiz_key_exact ((recordQuizScore "A B" 60 100 none 0 (initialState "" 0)).1)
    "ab" "A B" 40 100 none 1 (by decide)

/-- C3 counterexample: "A B" and "ab" are identical after canonicalization,
yet recording a quiz score under each yields two stored quiz entries, not
one. -/
theorem c3_counterexample :
    canonicalize "A B" = canonicalize "ab" ∧
    ((recordQuizScore "ab" 40 100 none 1
        ((recordQuizScore "A B" 60 100 none 0 (initialState "" 0)).1)).1.quizScores.length = 2) := by
  constructor
  · rfl
  · rfl

/-! ## C4: which operations emit a reporting pulse -/

theorem emitsPulse_send (s : TrackerState) : emitsPulse (sendProgressUpdate s) :=
  ⟨s.lessonId, calculateProgress s, List.mem_singleton_self _⟩

/-- C4 (amended): `completeObjective`, `recordQuizScore`,
`updateTopicProgress`, `resetQuestions`, and `recordQuestionAnswer` on a
fresh question id each emit a progress-update pulse as part of the call —
but not every mutating operation does: `addObjective` and `setLessonId`
emit nothing, and a repeated `recordQuestionAnswer` emits nothing either;
see `c4_counterexample`. -/
theorem c4_pulse_behaviour (s : TrackerState) (name topic txt id qid : String)
    (sc ms pct : ℚ) (tq : Option ℚ) (now : ℕ) (b : Bool) :
    emitsPulse (completeObjective name sc now s).2 ∧
    emitsPulse (recordQuizScore name sc ms tq now s).2 ∧
    emitsPulse (updateTopicProgress topic pct s).2 ∧
    emitsPulse (resetQuestions s).2 ∧
    (objGet qid s.questionsAnswered.questions = none →
      emitsPulse (recordQuestionAnswer qid b txt now s).2) ∧
    ((objGet qid s.questionsAnswered.questions).isSome →
      (recordQuestionAnswer qid b txt now s).2 = []) ∧
    (addObjective name now s).2 = [] ∧
    (setLessonId id s).2 = [] := by
  refine ⟨emitsPulse_send _, emitsPulse_send _, emitsPulse_send _, emitsPulse_send _,
    ?_, ?_, ?_, rfl⟩
  · intro hg
    unfold recordQuestionAnswer
    simp only [hg]
    exact emitsPulse_send _
  · intro hg
    cases he : objGet qid s.questionsAnswered.questions with
    | none => rw [he] at hg; simp at hg
    | some e =>
      unfold recordQuestionAnswer
      simp only [he]
  · unfold addObjective
    dsimp only
    split
    · rfl
    · rfl

/-- C4 witness: a first answer for "q1" emits a pulse; repeating the same
question id emits nothing. -/
theorem c4_pulse_behaviour_witness :
    emitsPulse (recordQuestionAnswer "q1" true "" 0 (initialState "" 0)).2 ∧
    (recordQuestionAnswer "q1" false "" 5
      ((recordQuestionAnswer "q1" true "" 0 (initialState "" 0)).1)).2 = [] :=
  ⟨(c4_pulse_behaviour (initialState "" 0) "n" "t" "" "i" "q1"
      0 100 0 none 0 true).2.2.2.2.1 rfl,
   (c4_pulse_behaviour ((recordQuestionAnswer "q1" true "" 0 (initialState "" 0)).1)
      "n" "t" "" "i" "q1" 0 100 0 none 5 false).2.2.2.2.2.1 (by rfl)⟩

/-- C4 counterexample: `addObjective` mutates the session (it appends an
objective) yet triggers no reporting pulse at all. -/
theorem c4_counterexample :
    (addObjective "obj" 0 (initialState "" 0)).1.objectives.length = 1 ∧
    (addObjective "obj" 0 (initialState "" 0)).2 = [] := by
  constructor
  · rfl
  · rfl

/-! ## C5: quiz percentages are monotonically non-decreasing -/

/-- C5: `recordQuizScore` keeps the stored percentage of every quiz name
monotonically non-decreasing.  A call whose computed percentage
`round((rawScore / maxScore) × 100)` does not exceed the stored one leaves
the session state — in particular the stored entry — completely unchanged,
and after any call every previously stored entry maps to an entry whose
percentage is at least the old one. -/
theorem c5_quiz_monotone (s : TrackerState) (n : String) (sc ms : ℚ)
    (tq : Option ℚ) (now : ℕ) :
    (∀ e, objGet n s.quizScores = some e →
      jsRound ((sc / ms) * 100) ≤ e.percentage →
      (recordQuizScore n sc ms tq now s).1 = s) ∧
    (∀ k e, objGet k s.quizScores = some e →
      ∃ e', objGet k (recordQuizScore n sc ms tq now s).1.quizScores = some e' ∧
        e.percentage ≤ e'.percentage) := by
  constructor
  · intro e hg hle
    unfold recordQuizScore
    simp only [hg]
    rw [if_neg (not_lt.mpr hle)]
  · intro k e hk
    by_cases hkn : k = n
    · subst hkn
      unfold recordQuizScore
      simp only [hk]
      split
      · rename_i hgt
        exact ⟨_, objGet_objSet_self _ _ _, hgt.le⟩
      · exact ⟨e, hk, le_refl _⟩
    · rw [recordQuizScore_frame s n k sc ms tq now hkn]
      exact ⟨e, hk, le_refl _⟩

/-- C5 witness: submitting 60% then 40% for quiz "quiz" leaves the state of
the first submission untouched, retaining 60%. -/
theorem c5_quiz_monotone_witness :
    (recordQuizScore "quiz" 40 100 none 5
        ((recordQuizScore "quiz" 60 100 none 0 (initialState "" 0)).1)).1 =
      (recordQuizScore "quiz" 60 100 none 0 (initialState "" 0)).1 :=
  (c5_quiz_monotone ((recordQuizScore "quiz" 60 100 none 0 (initialState "" 0)).1)
      "quiz" 40 100 none 5).1
    { score := 60, maxScore := 100, percentage := 60, totalQuestions := 100, timestamp := 0 }
    (by simp only [recordQuizScore, initialState, objGet, objSet]
        norm_num [jsRound])
    (by norm_num [jsRound])

/-! ## C7: repeated question ids are complete no-ops -/

/-- C7: calling `recordQuestionAnswer` with a question id already present in
the ledger changes nothing — the whole session state, including the
per-question map and both totals, is returned untouched (and no message is
emitted) — whatever `isCorrect` value the repeated call carries. -/
theorem c7_question_repeat_noop (s : TrackerState) (qid : String) (c : Bool)
    (txt : String) (now : ℕ)
    (h : (objGet qid s.questionsAnswered.questions).isSome) :
    recordQuestionAnswer qid c txt now s = (s, []) := by
  cases hg : objGet qid s.questionsAnswered.questions with
  | none => rw [hg] at h; simp at h
  | some e =>
    unfold recordQuestionAnswer
    simp only [hg]

/-- C7 witness: answering "q1" correctly and then re-answering it
incorrectly leaves the ledger exactly as after the first answer. -/
theorem c7_question_repeat_noop_witness :
    recordQuestionAnswer "q1" false "second" 5
        ((recordQuestionAnswer "q1" true "first" 0 (initialState "" 0)).1) =
      ((recordQuestionAnswer "q1" true "first" 0 (initialState "" 0)).1, []) :=
  c7_question_repeat_noop _ "q1" false "second" 5 (by rfl)

/-! ## C10: getQuestionsStats never divides unguarded -/

/-- C10: `getQuestionsStats` returns the current totals, and its percentage
is 0 when nothing has been answered, and
`round((totalCorrect / totalAnswered) × 100)` otherwise — the division is
always guarded by `totalAnswered > 0`. -/
theorem c10_stats_guarded (s : TrackerState) :
    getQuestionsStats s =
      { total := s.questionsAnswered.total
        correct := s.questionsAnswered.correct
        percentage :=
          if s.questionsAnswered.total = 0 then 0
          else jsRound (((s.questionsAnswered.correct : ℚ) /
            (s.questionsAnswered.total : ℚ)) * 100) } := by
  unfold getQuestionsStats
  by_cases h : s.questionsAnswered.total = 0
  · simp [h]
  · simp [h, Nat.pos_of_ne_zero h]

/-! ## C9: the question-ledger invariant -/

theorem objGet_eq_none_iff (k : String) (l : List (String × α)) :
    objGet k l = none ↔ k ∉ l.map Prod.fst := by
  induction l with
  | nil => simp [objGet]
  | cons hd tl ih =>
    obtain ⟨k', v'⟩ := hd
    by_cases h : k = k'
    · subst h
      simp [objGet]
    · simp [objGet, h, ih]

theorem objSet_of_not_mem {k : String} {l : List (String × α)}
    (h : k ∉ l.map Prod.fst) (v : α) :
    objSet k v l = l ++ [(k, v)] := by
  induction l with
  | nil => simp [objSet]
  | cons hd tl ih =>
    obtain ⟨k', v'⟩ := hd
    simp only [List.map_cons, List.mem_cons, not_or] at h
    simp [objSet, h.1, ih h.2]

theorem ledgerInv_apply (op : LedgerOp) (s : TrackerState) (h : ledgerInv s) :
    ledgerInv (applyLedgerOp op s) := by
  obtain ⟨ht, hc, hnd⟩ := h
  cases op with
  | reset => exact ⟨rfl, rfl, List.nodup_nil⟩
  | answer qid c txt now =>
    unfold applyLedgerOp recordQuestionAnswer
    cases hg : objGet qid s.questionsAnswered.questions with
    | some e =>
      simp only [hg]
      exact ⟨ht, hc, hnd⟩
    | none =>
      simp only [hg]
      have hmem : qid ∉ s.questionsAnswered.questions.map Prod.fst :=
        (objGet_eq_none_iff _ _).mp hg
      refine ⟨?_, ?_, ?_⟩
      · show s.questionsAnswered.total + 1 = _
        rw [objSet_of_not_mem hmem]
        simp [ht]
      · show s.questionsAnswered.correct + _ = _
        rw [objSet_of_not_mem hmem]
        cases c <;> simp [hc, List.filter_append]
      · show (List.map Prod.fst (objSet qid _ s.questionsAnswered.questions)).Nodup
        rw [objSet_of_not_mem hmem]
        simp only [List.map_append, List.map_cons, List.map_nil]
        rw [List.nodup_append]
        refine ⟨hnd, List.nodup_singleton _, ?_⟩
        intro a ha hb
        simp at hb
        subst hb
        exact hmem ha

theorem runLedgerOps_inv (ops : List LedgerOp) (s : TrackerState) (h : ledgerInv s) :
    ledgerInv (runLedgerOps ops s) := by
  induction ops generalizing s with
  | nil => exact h
  | cons op rest ih => exact ih _ (ledgerInv_apply op s h)

/-- C9: after any sequence of `recordQuestionAnswer` / `resetQuestions`
calls from the initial state, `totalAnswered` equals the number of recorded
question ids (which are pairwise distinct), `totalCorrect` equals the number
of recorded questions marked correct, and therefore
`totalCorrect ≤ totalAnswered`. -/
theorem c9_ledger_invariant (ops : List LedgerOp) (title : String) (t : ℕ) :
    ledgerInv (runLedgerOps ops (initialState title t)) ∧
      (runLedgerOps ops (initialState title t)).questionsAnswered.correct ≤
        (runLedgerOps ops (initialState title t)).questionsAnswered.total := by
  have hinv := runLedgerOps_inv ops (initialState title t) ⟨rfl, rfl, List.nodup_nil⟩
  refine ⟨hinv, ?_⟩
  obtain ⟨ht, hc, -⟩ := hinv
  rw [ht, hc]
  exact List.length_filter_le _ _

/-! ## C6: objective entries are unique per canonical key with max score -/

theorem find?_append_middle (p : α → Bool) (pre : List α) (o : α) (post : List α)
    (hpre : ∀ x ∈ pre, p x = false) (ho : p o = true) :
    List.find? p (pre ++ o :: post) = some o := by
  induction pre with
  | nil => simp [List.find?_cons_of_pos _ ho]
  | cons hd tl ih =>
    have hhd : p hd = false := hpre hd (List.mem_cons_self _ _)
    rw [List.cons_append, List.find?_cons_of_neg _ (by simp [hhd])]
    exact ih (fun x hx => hpre x (List.mem_cons_of_mem _ hx))

theorem updateFirst_append_middle (p : α → Bool) (f : α → α) (pre : List α) (o : α)
    (post : List α) (hpre : ∀ x ∈ pre, p x = false) (ho : p o = true) :
    updateFirst p f (pre ++ o :: post) = pre ++ f o :: post := by
  induction pre with
  | nil => simp [updateFirst, ho]
  | cons hd tl ih =>
    have hhd : p hd = false := hpre hd (List.mem_cons_self _ _)
    rw [List.cons_append, updateFirst, hhd]
    simp only [Bool.false_eq_true, if_false, List.cons_append]
    rw [ih (fun x hx => hpre x (List.mem_cons_of_mem _ hx))]

theorem completeObjective_sole_step (s : TrackerState) (name : String) (sc : ℚ) (now : ℕ)
    (k : String) (acc : ℚ) (hk : canonicalize name = k)
    (h : soleEntryScore k acc s.objectives) :
    soleEntryScore k (max acc sc) (completeObjective name sc now s).1.objectives := by
  obtain ⟨pre, o, post, heq, hpre, ho, hoc, hos, hpost⟩ := h
  have hpreb : ∀ x ∈ pre, (canonicalize x.name == canonicalize name) = false := by
    intro x hx
    rw [hk]
    exact beq_eq_false_iff_ne.mpr (hpre x hx)
  have hob : (canonicalize o.name == canonicalize name) = true := by
    rw [hk, ho, beq_self_eq_true]
  unfold completeObjective
  dsimp only
  rw [heq, find?_append_middle _ pre o post hpreb hob]
  simp only [Option.isSome_some, if_true]
  rw [updateFirst_append_middle _ _ pre o post hpreb hob]
  refine ⟨pre, _, post, rfl, hpre, ?_, rfl, ?_, hpost⟩
  · exact ho
  · show max o.score sc = max acc sc
    rw [hos]

theorem completeObjective_sole_base (s : TrackerState) (name : String) (sc : ℚ) (now : ℕ)
    (k : String) (hk : canonicalize name = k)
    (h : ∀ x ∈ s.objectives, canonicalize x.name ≠ k) :
    soleEntryScore k sc (completeObjective name sc now s).1.objectives := by
  have hnone : s.objectives.find? (fun o => canonicalize o.name == canonicalize name) = none := by
    rw [List.find?_eq_none]
    intro x hx
    rw [hk]
    simp only [beq_iff_eq]
    exact h x hx
  unfold completeObjective
  dsimp only
  rw [hnone]
  simp only [Option.isSome_none, Bool.false_eq_true, if_false]
  exact ⟨s.objectives, _, [], rfl, h, hk, rfl, rfl, by simp⟩

theorem completeMany_sole (now : ℕ) (k : String) :
    ∀ (calls : List (String × ℚ)), (∀ c ∈ calls, canonicalize c.1 = k) →
      ∀ (s : TrackerState) (acc : ℚ), soleEntryScore k acc s.objectives →
        soleEntryScore k (calls.foldl (fun a c => max a c.2) acc)
          (completeMany calls now s).objectives := by
  intro calls
  induction calls with
  | nil => intro _ s acc h; exact h
  | cons c rest ih =>
    intro hall s acc h
    have hc := hall c (List.mem_cons_self _ _)
    have hrest : ∀ x ∈ rest, canonicalize x.1 = k :=
      fun x hx => hall x (List.mem_cons_of_mem _ hx)
    exact ih hrest _ _ (completeObjective_sole_step s c.1 c.2 now k acc hc h)

/-- C6: starting from a state holding no objective with canonical key `k`,
after any nonempty run of `completeObjective` calls whose names all
canonicalize to `k`, the objective list holds exactly one entry with that
canonical key, and that entry is completed with score equal to the running
maximum of all submitted scores — e.g. completing the name written
Ohm\x27s Law with 90 and then "ohms law" with 95 yields one entry scored
95, not two entries. -/
theorem c6_objective_canonical_max (firstCall : String × ℚ) (rest : List (String × ℚ))
    (k : String) (now : ℕ) (s : TrackerState)
    (hall : ∀ c ∈ firstCall :: rest, canonicalize c.1 = k)
    (hnone : ∀ x ∈ s.objectives, canonicalize x.name ≠ k) :
    ((completeMany (firstCall :: rest) now s).objectives.filter
        (fun o => canonicalize o.name == k)).length = 1 ∧
    ∀ o ∈ (completeMany (firstCall :: rest) now s).objectives,
      canonicalize o.name = k →
        o.completed = true ∧ o.score = rest.foldl (fun a c => max a c.2) firstCall.2 := by
  have h1 := completeObjective_sole_base s firstCall.1 firstCall.2 now k
    (hall _ (List.mem_cons_self _ _)) hnone
  have hsole : soleEntryScore k (rest.foldl (fun a c => max a c.2) firstCall.2)
      (completeMany (firstCall :: rest) now s).objectives :=
    completeMany_sole now k rest (fun c hc => hall c (List.mem_cons_of_mem _ hc))
      _ firstCall.2 h1
  obtain ⟨pre, o, post, heq, hpre, ho, hoc, hos, hpost⟩ := hsole
  rw [heq]
  constructor
  · rw [List.filter_append]
    have hfpre : pre.filter (fun o => canonicalize o.name == k) = [] := by
      rw [List.filter_eq_nil_iff]
      intro a ha
      simp only [beq_iff_eq]
      exact hpre a ha
    have hfpost : post.filter (fun o => canonicalize o.name == k) = [] := by
      rw [List.filter_eq_nil_iff]
      intro a ha
      simp only [beq_iff_eq]
      exact hpost a ha
    rw [hfpre, List.filter_cons, if_pos (by simp [beq_iff_eq, ho]), hfpost]
    rfl
  · intro o' ho' hko'
    rcases List.mem_append.mp ho' with hin | hin
    · exact absurd hko' (hpre o' hin)
    · rcases List.mem_cons.mp hin with rfl | hin
      · exact ⟨hoc, hos⟩
      · exact absurd hko' (hpost o' hin)

/-- C6 witness: completing the two spellings of the same objective name
(90, then 95) from a fresh session leaves exactly one objective entry under
the canonical key "ohmslaw". -/
theorem c6_objective_canonical_max_witness :
    ((completeMany [("Ohm\x27s Law", 90), ("ohms law", 95)] 0
        (initialState "" 0)).objectives.filter
        (fun o => canonicalize o.name == "ohmslaw")).length = 1 :=
  (c6_objective_canonical_max ("Ohm\x27s Law", 90) [("ohms law", 95)] "ohmslaw" 0
      (initialState "" 0) (by decide) (by simp [initialState])).1

end LessonTracker
